import Mathlib

/-!
# Verification of the licli entity-graph / query-encoding core

This file is a shallow embedding, in Lean 4, of the parts of the `licli`
repository (a Go client for LinkedIn's Voyager API) that the specification's
claims are about:

* the JSON field-bag model used by the resolvers
  (`map[string]any` values decoded by `encoding/json`),
* the messaging response parsers `ParseConversations` / `ParseMessages`
  and their helpers (`internal/api/messaging.go`),
* the URN / query encoders (`encodeURNValue`, the `fmt.Sprintf` tuple
  fragments, `url.PathEscape`, `url.QueryEscape`, `url.Values.Encode`),
* the request executor's precondition check and status classification
  (`internal/api/client.go`, `doInternal`),
* the tracking-token generator and the payload assembly of `CreatePost`
  and `Connect` (`internal/api/linkedin.go`; the generator itself,
  `auth.RandomTrackingID`, is modelled from the spec since its body is
  not part of the sources, only its callers are),
* the `GetMe` extraction (`internal/api/linkedin.go`).

Modelling conventions:

* Go strings are Lean `String`s; where Go iterates over raw bytes
  (the `net/url` escapers) we encode the string to its UTF-8 bytes
  (as `Nat`s `< 256`) first, exactly as Go does.
* `map[string]any` values are modelled by the inductive `JValue`;
  a decoded JSON object is an association list with unique keys
  (as produced by `encoding/json`), and lookup is `find?`.
* Go map *indexes built by insertion* (`participantsByURN` etc.) are
  modelled as association lists in insertion order with a
  last-insertion-wins lookup (`idxGet`), matching map assignment.
* `sort.Slice` is documented by Go as "not guaranteed to be stable";
  its result is therefore modelled relationally: the output is some
  permutation of the input that is sorted for the supplied `less`
  function (adjacent elements `a, b` satisfy `¬ less b a`).  Every
  deterministic fact proved below holds for *all* outputs admitted by
  that contract.
* JSON numbers are decoded by Go into `float64` and then truncated to
  `int64`; the timestamps involved are integral and far below 2^53, so
  they are modelled exactly as `Int`.
-/

/-! ## JSON field-bag model (`map[string]any` after `encoding/json`) -/

/-- A decoded JSON value (`any` on the Go side after `json.Unmarshal`). -/
inductive JValue where
  | jnull : JValue
  | jbool : Bool → JValue
  | jnum : Int → JValue
  | jstr : String → JValue
  | jarr : List JValue → JValue
  | jobj : List (String × JValue) → JValue
deriving Repr

/-- Object field lookup, `m[key]` on a decoded Go map.  Keys of a decoded
JSON object are unique, so first-match lookup is map lookup. -/
def lookupField (fs : List (String × JValue)) (k : String) : Option JValue :=
  (fs.find? (fun p => p.1 = k)).map (fun p => p.2)

/-- The Go type assertion `v.(string)` with its zero value: `s, _ := v.(string)`. -/
def strOf : Option JValue → String
  | some (.jstr s) => s
  | _ => ""

/-- `getString` from `internal/api/linkedin.go`: walk a path of keys through
nested objects, returning `""` as soon as a step is not an object or the key
is absent, and `""` if the final value is not a string. -/
def getStringV : JValue → List String → String
  | v, [] => strOf (some v)
  | .jobj fs, p :: ps =>
      match lookupField fs p with
      | some next => getStringV next ps
      | none => ""
  | _, _ :: _ => ""

/-- `getString` applied to a map (the Go function's first argument). -/
def getStringM (fs : List (String × JValue)) (path : List String) : String :=
  getStringV (.jobj fs) path

/-- `getInt64` from `internal/api/linkedin.go`: numeric field or `0`. -/
def getInt64M (fs : List (String × JValue)) (k : String) : Int :=
  match lookupField fs k with
  | some (.jnum n) => n
  | _ => 0

/-- The `$type` tag of an entity: `t, _ := m["$type"].(string)`. -/
def typeOf (fs : List (String × JValue)) : String :=
  strOf (lookupField fs "$type")

/-! ## Domain objects (`internal/api/messaging.go`) -/

/-- `Participant` from `internal/api/messaging.go`. -/
structure Participant where
  EntityURN : String
  FirstName : String
  LastName : String
  ProfileURN : String
deriving Repr, DecidableEq

/-- `Participant.FullName`: `strings.TrimSpace(p.FirstName + " " + p.LastName)`. -/
def trimSpaceChars (l : List Char) : List Char :=
  ((l.dropWhile Char.isWhitespace).reverse.dropWhile Char.isWhitespace).reverse

/-- `strings.TrimSpace` (the strings involved only carry ASCII whitespace,
for which Go's `unicode.IsSpace` coincides with `Char.isWhitespace`). -/
def trimSpace (s : String) : String :=
  String.mk (trimSpaceChars s.data)

def Participant.fullName (p : Participant) : String :=
  trimSpace (p.FirstName ++ " " ++ p.LastName)

/-- `Message` from `internal/api/messaging.go`. -/
structure Message where
  EntityURN : String
  BodyText : String
  SenderURN : String
  SenderName : String
  DeliveredAt : Int
deriving Repr, DecidableEq

/-- `Conversation` from `internal/api/messaging.go` (`*Message` as `Option`). -/
structure Conversation where
  EntityURN : String
  Participants : List Participant
  LastMessage : Option Message
deriving Repr, DecidableEq

/-! ## Index model: Go maps built by insertion -/

/-- Lookup in an insertion-ordered association list where a later insertion
with the same key overwrites an earlier one (Go map assignment). -/
def idxGet {β : Type} (l : List (String × β)) (k : String) : Option β :=
  l.foldl (fun r p => if p.1 = k then some p.2 else r) none

/-! ## Messaging parsers (`internal/api/messaging.go`) -/

/-- `parseParticipant`. -/
def parseParticipant (m : List (String × JValue)) : Participant :=
  let firstName :=
    match lookupField m "participantType" with
    | some (.jobj pt) =>
        match lookupField pt "member" with
        | some (.jobj mem) =>
            match lookupField mem "firstName" with
            | some (.jobj fn) => strOf (lookupField fn "text")
            | _ => ""
        | _ => ""
    | _ => ""
  let lastName :=
    match lookupField m "participantType" with
    | some (.jobj pt) =>
        match lookupField pt "member" with
        | some (.jobj mem) =>
            match lookupField mem "lastName" with
            | some (.jobj ln) => strOf (lookupField ln "text")
            | _ => ""
        | _ => ""
    | _ => ""
  { EntityURN := getStringM m ["entityUrn"]
    FirstName := firstName
    LastName := lastName
    ProfileURN := getStringM m ["hostIdentityUrn"] }

/-- `parseMessage`: sender reference tries `*sender` first, then `sender`;
the sender name is resolved through the participant index. -/
def parseMessage (m : List (String × JValue))
    (pidx : List (String × Participant)) : Message :=
  let bodyText :=
    match lookupField m "body" with
    | some (.jobj b) => strOf (lookupField b "text")
    | _ => ""
  let s1 := getStringM m ["*sender"]
  let sender := if s1 = "" then strOf (lookupField m "sender") else s1
  let senderName :=
    match idxGet pidx sender with
    | some p => p.fullName
    | none => ""
  { EntityURN := getStringM m ["entityUrn"]
    BodyText := bodyText
    SenderURN := sender
    SenderName := senderName
    DeliveredAt := getInt64M m "deliveredAt" }

/-- Phase 1 of `ParseConversations` / `ParseMessages`: index the
`MessagingParticipant` entities by `entityUrn` (skipping empty URNs). -/
def participantIndex (included : List JValue) : List (String × Participant) :=
  included.foldl
    (fun acc item =>
      match item with
      | .jobj m =>
          if typeOf m = "com.linkedin.messenger.MessagingParticipant" then
            let p := parseParticipant m
            if p.EntityURN = "" then acc else acc ++ [(p.EntityURN, p)]
          else acc
      | _ => acc) []

/-- Phase 2 of `ParseConversations`: index the `Message` entities by
`entityUrn` (skipping empty URNs). -/
def messageIndex (included : List JValue)
    (pidx : List (String × Participant)) : List (String × Message) :=
  included.foldl
    (fun acc item =>
      match item with
      | .jobj m =>
          if typeOf m = "com.linkedin.messenger.Message" then
            let msg := parseMessage m pidx
            if msg.EntityURN = "" then acc else acc ++ [(msg.EntityURN, msg)]
          else acc
      | _ => acc) []

/-- The body of the participant-reference loop: given the value under one of
the two participant keys (when it is an array), keep the string references
that resolve in the participant index. -/
def collectParticipants (pidx : List (String × Participant))
    (refs : List JValue) : List Participant :=
  refs.filterMap (fun r =>
    match r with
    | .jstr s => idxGet pidx s
    | _ => none)

/-- One iteration of the key loop in phase 3 of `ParseConversations`:
`none` when the key is absent or its value is not an array. -/
def partsFromKey (m : List (String × JValue)) (pidx : List (String × Participant))
    (key : String) : Option (List Participant) :=
  match lookupField m key with
  | some (.jarr refs) => some (collectParticipants pidx refs)
  | _ => none

/-- The participant resolution of `ParseConversations`: the loop over
`["*conversationParticipants", "conversationParticipants"]` appends the
resolved participants of each key in turn and breaks as soon as the
accumulated list is non-empty. -/
def resolveParts (m : List (String × JValue))
    (pidx : List (String × Participant)) : List Participant :=
  match partsFromKey m pidx "*conversationParticipants" with
  | some ps =>
      if ps = [] then (partsFromKey m pidx "conversationParticipants").getD []
      else ps
  | none => (partsFromKey m pidx "conversationParticipants").getD []

/-- One iteration of the last-message key loop: the key's value must be a
non-empty string that resolves in the message index. -/
def lastFromKey (m : List (String × JValue)) (midx : List (String × Message))
    (key : String) : Option Message :=
  match lookupField m key with
  | some (.jstr r) => if r = "" then none else idxGet midx r
  | _ => none

/-- The last-message resolution of `ParseConversations`: the loop over
`["*lastMessage", "lastMessage"]` breaks on the first key that resolves. -/
def resolveLast (m : List (String × JValue))
    (midx : List (String × Message)) : Option Message :=
  (lastFromKey m midx "*lastMessage").orElse
    (fun _ => lastFromKey m midx "lastMessage")

/-- Phase 3 of `ParseConversations`, one `Conversation` entity. -/
def mkConversation (m : List (String × JValue))
    (pidx : List (String × Participant)) (midx : List (String × Message)) :
    Conversation :=
  { EntityURN := getStringM m ["entityUrn"]
    Participants := resolveParts m pidx
    LastMessage := resolveLast m midx }

/-- `ParseConversations` up to (but excluding) the final `sort.Slice` call:
the conversation list in `included`-array order. -/
def parseConversationsPre (raw : List (String × JValue)) : List Conversation :=
  match lookupField raw "included" with
  | some (.jarr included) =>
      if included.isEmpty then []
      else
        let pidx := participantIndex included
        let midx := messageIndex included pidx
        included.foldl
          (fun acc item =>
            match item with
            | .jobj m =>
                if typeOf m = "com.linkedin.messenger.Conversation" then
                  acc ++ [mkConversation m pidx midx]
                else acc
            | _ => acc) []
  | _ => []

/-- `ParseMessages` up to (but excluding) the final `sort.Slice` call. -/
def parseMessagesPre (raw : List (String × JValue)) : List Message :=
  match lookupField raw "included" with
  | some (.jarr included) =>
      if included.isEmpty then []
      else
        let pidx := participantIndex included
        included.foldl
          (fun acc item =>
            match item with
            | .jobj m =>
                if typeOf m = "com.linkedin.messenger.Message" then
                  acc ++ [parseMessage m pidx]
                else acc
            | _ => acc) []
  | _ => []

/-- The sort key of the conversation sort: the resolved last message's
`DeliveredAt`, or `0` when there is none. -/
def convLastTs (c : Conversation) : Int :=
  match c.LastMessage with
  | some m => m.DeliveredAt
  | none => 0

/-- Adjacent-pairs sortedness for a boolean comparison (executable). -/
def sortedBy {α : Type} (le : α → α → Bool) : List α → Bool
  | [] => true
  | [_] => true
  | a :: b :: t => le a b && sortedBy le (b :: t)

/-- `ParseConversations`: the final `sort.Slice(convos, less)` with
`less i j = ti > tj` is modelled by its contract — the result is a
permutation of the pre-sort list in which adjacent elements are ordered
(`¬ less b a`, i.e. descending timestamps).  Go documents `sort.Slice` as
not guaranteed to be stable, so no more than this is promised. -/
def ParseConversationsRel (raw : List (String × JValue))
    (out : List Conversation) : Prop :=
  out.Perm (parseConversationsPre raw) ∧
    sortedBy (fun a b => convLastTs b ≤ convLastTs a) out = true

/-- `ParseMessages`: the final `sort.Slice(msgs, less)` with
`less i j = ti < tj`, modelled by the same contract (ascending). -/
def ParseMessagesRel (raw : List (String × JValue))
    (out : List Message) : Prop :=
  out.Perm (parseMessagesPre raw) ∧
    sortedBy (fun a b => a.DeliveredAt ≤ b.DeliveredAt) out = true

instance (raw : List (String × JValue)) (out : List Conversation) :
    Decidable (ParseConversationsRel raw out) :=
  inferInstanceAs (Decidable (And _ _))

instance (raw : List (String × JValue)) (out : List Message) :
    Decidable (ParseMessagesRel raw out) :=
  inferInstanceAs (Decidable (And _ _))

/-! ## Fixtures for the ordering claims -/

/-- A minimal `Message` entity object: `$type`, `entityUrn`, `deliveredAt`,
`body.text`. -/
def msgObj (urn : String) (ts : Int) (body : String) : JValue :=
  .jobj [("$type", .jstr "com.linkedin.messenger.Message"),
         ("entityUrn", .jstr urn),
         ("deliveredAt", .jnum ts),
         ("body", .jobj [("text", .jstr body)])]

/-- A minimal `Conversation` entity object referencing its last message
under the `*`-prefixed key. -/
def convObj (urn lastRef : String) : JValue :=
  .jobj [("$type", .jstr "com.linkedin.messenger.Conversation"),
         ("entityUrn", .jstr urn),
         ("*lastMessage", .jstr lastRef)]

/-- Three conversations whose last messages have timestamps 100, 300, 200
(in `included`-array order). -/
def convFixture : List (String × JValue) :=
  [("included", .jarr
     [msgObj "urn:li:msg:m1" 100 "first",
      msgObj "urn:li:msg:m2" 300 "second",
      msgObj "urn:li:msg:m3" 200 "third",
      convObj "urn:li:conv:c1" "urn:li:msg:m1",
      convObj "urn:li:conv:c2" "urn:li:msg:m2",
      convObj "urn:li:conv:c3" "urn:li:msg:m3"])]

/-- Three messages with timestamps 300, 100, 200 (in array order). -/
def msgFixture : List (String × JValue) :=
  [("included", .jarr
     [msgObj "urn:li:msg:m1" 300 "a",
      msgObj "urn:li:msg:m2" 100 "b",
      msgObj "urn:li:msg:m3" 200 "c"])]

/-- Two distinct messages with the *same* timestamp (a sort tie). -/
def msgFixtureTie : List (String × JValue) :=
  [("included", .jarr
     [msgObj "urn:li:msg:mA" 100 "a",
      msgObj "urn:li:msg:mB" 100 "b"])]


/-! ## URN value encoding (`encodeURNValue`, `internal/api/messaging.go`)

`strings.NewReplacer(":", "%3A", "(", "%28", ")", "%29", ",", "%2C")` has
only single-byte patterns, so `Replace` scans the input left to right and
substitutes each byte that matches a pattern (Go's `byteStringReplacer`),
leaving every other byte unchanged. -/

/-- The replacement pairs of the `strings.NewReplacer` call, in argument
order. -/
def urnReplacerPairs : List (Char × String) :=
  [(':', "%3A"), ('(', "%28"), (')', "%29"), (',', "%2C")]

/-- Left-to-right single-character replacement: the first pair whose pattern
matches the current character is applied, other characters are copied. -/
def replaceChars (pairs : List (Char × String)) : List Char → List Char
  | [] => []
  | c :: cs =>
      (match pairs.find? (fun p => p.1 = c) with
       | some p => p.2.data
       | none => [c]) ++ replaceChars pairs cs

/-- `encodeURNValue` from `internal/api/messaging.go`. -/
def encodeURNValue (urn : String) : String :=
  String.mk (replaceChars urnReplacerPairs urn.data)

/-! ## Decimal rendering (`fmt.Sprintf("%d", n)` for non-negative `n`) -/

def digitChar (k : Nat) : Char :=
  (['0', '1', '2', '3', '4', '5', '6', '7', '8', '9']).getD k '0'

def natToDigitsAux : Nat → Nat → List Char
  | 0, _ => []
  | fuel + 1, n =>
      if n < 10 then [digitChar n]
      else natToDigitsAux fuel (n / 10) ++ [digitChar (n % 10)]

def natToDigits (n : Nat) : List Char :=
  natToDigitsAux (n + 1) n

/-- `fmt.Sprintf("%d", n)` for a non-negative integer. -/
def natRepr (n : Nat) : String :=
  String.mk (natToDigits n)

/-! ## The `ListConversations` variables fragment
(`internal/api/messaging.go`, `fmt.Sprintf` of the tuple syntax). -/

/-- The value `count` takes inside `ListConversations`:
`if count <= 0 { count = 20 }`. -/
def listConversationsCount (count : Int) : Nat :=
  if count ≤ 0 then 20 else count.toNat

/-- The `variables=` fragment assembled by `ListConversations`:
`fmt.Sprintf("(query:(predicateUnions:List((conversationCategoryPredicate:(category:INBOX)))),count:%d,mailboxUrn:%s)", count, encodeURNValue(profileURN))`. -/
def listConversationsVariables (count : Int) (profileURN : String) : String :=
  "(query:(predicateUnions:List((conversationCategoryPredicate:(category:INBOX)))),count:"
    ++ natRepr (listConversationsCount count)
    ++ ",mailboxUrn:"
    ++ encodeURNValue profileURN
    ++ ")"

/-- The full raw query of `ListConversations`:
`fmt.Sprintf("variables=%s&queryId=%s", variables, queryID)`. -/
def listConversationsRawQuery (count : Int) (profileURN queryID : String) : String :=
  "variables=" ++ listConversationsVariables count profileURN
    ++ "&queryId=" ++ queryID

/-! ## Byte-level escaping (`net/url`)

Go's escapers iterate over the raw bytes of the string; a Lean `String` is
encoded to its UTF-8 bytes (each a `Nat < 256`) first, exactly as Go stores
strings. -/

/-- UTF-8 encoding of one character (the bytes Go iterates over). -/
def utf8Char (c : Char) : List Nat :=
  let n := c.toNat
  if n < 128 then [n]
  else if n < 2048 then [192 + n / 64, 128 + n % 64]
  else if n < 65536 then [224 + n / 4096, 128 + (n / 64) % 64, 128 + n % 64]
  else [240 + n / 262144, 128 + (n / 4096) % 64, 128 + (n / 64) % 64, 128 + n % 64]

/-- UTF-8 bytes of a string. -/
def utf8Bytes (s : String) : List Nat :=
  s.data.flatMap utf8Char

/-- ASCII letters and digits (`shouldEscape`'s first check). -/
def isAlphaNumByte (b : Nat) : Bool :=
  (97 ≤ b && b ≤ 122) || (65 ≤ b && b ≤ 90) || (48 ≤ b && b ≤ 57)

/-- `shouldEscape(c, encodePathSegment)` from `net/url`: unreserved marks
`- _ . ~` and the RFC 3986 reserved characters `$ & + : = @` stay literal
inside a path segment; `/ ; , ?` and everything else is escaped. -/
def shouldEscapePathSegment (b : Nat) : Bool :=
  if isAlphaNumByte b then false
  else if b = 45 || b = 95 || b = 46 || b = 126 then false
  else if b = 36 || b = 38 || b = 43 || b = 44 || b = 47 || b = 58 || b = 59
       || b = 61 || b = 63 || b = 64 then
    b = 47 || b = 59 || b = 44 || b = 63
  else true

/-- `shouldEscape(c, encodeQueryComponent)` from `net/url`: only
alphanumerics and `- _ . ~` stay literal; every reserved character is
escaped (space is special-cased to `+` by `QueryEscape` itself). -/
def shouldEscapeQueryComponent (b : Nat) : Bool :=
  !(isAlphaNumByte b || b = 45 || b = 95 || b = 46 || b = 126)

def upperHexDigit (k : Nat) : Char :=
  (['0', '1', '2', '3', '4', '5', '6', '7', '8',
    '9', 'A', 'B', 'C', 'D', 'E', 'F']).getD k '0'

/-- `%XX` percent-escape of one byte (upper-case hex, as in `net/url`). -/
def pctEncode (b : Nat) : List Char :=
  ['%', upperHexDigit (b / 16), upperHexDigit (b % 16)]

/-- One byte of `url.PathEscape` output. -/
def pathEscapeByte (b : Nat) : List Char :=
  if shouldEscapePathSegment b then pctEncode b else [Char.ofNat b]

/-- One byte of `url.QueryEscape` output (space becomes `+`). -/
def queryEscapeByte (b : Nat) : List Char :=
  if b = 32 then ['+']
  else if shouldEscapeQueryComponent b then pctEncode b
  else [Char.ofNat b]

/-- `url.PathEscape`. -/
def pathEscape (s : String) : String :=
  String.mk ((utf8Bytes s).flatMap pathEscapeByte)

/-- `url.QueryEscape`. -/
def queryEscape (s : String) : String :=
  String.mk ((utf8Bytes s).flatMap queryEscapeByte)

/-! ## The two search query builders -/

/-- The keyword encoding of `searchGraphQL` (`src/unnamed/part_000`):
`strings.ReplaceAll(url.PathEscape(keywords), "+", "%20")` — the
`ReplaceAll` with a single-character pattern maps every `+` to `%20` and
copies every other character. -/
def searchGraphQLEscapedKW (keywords : String) : String :=
  String.mk ((pathEscape keywords).data.flatMap
    (fun c => if c = '+' then "%20".data else [c]))

/-- Clamping of `start` in both search functions: `if start < 0 { start = 0 }`. -/
def searchStartClamp (start : Int) : Nat :=
  if start < 0 then 0 else start.toNat

/-- Clamping of `count` in both search functions: `if count <= 0 { count = 10 }`. -/
def searchCountClamp (count : Int) : Nat :=
  if count ≤ 0 then 10 else count.toNat

/-- The `variables` tuple of `searchGraphQL`. -/
def searchGraphQLVariables (keywords resultType : String) (start : Int) : String :=
  "(start:" ++ natRepr (searchStartClamp start)
    ++ ",origin:OTHER,query:(keywords:" ++ searchGraphQLEscapedKW keywords
    ++ ",flagshipSearchIntent:SEARCH_SRP,queryParameters:List((key:resultType,value:List("
    ++ resultType
    ++ "))),includeFiltersInResponse:false))"

/-- The full raw query of `searchGraphQL`. -/
def searchGraphQLRawQuery (keywords resultType : String) (start : Int)
    (queryID : String) : String :=
  "includeWebMetadata=true&variables=" ++ searchGraphQLVariables keywords resultType start
    ++ "&queryId=" ++ queryID

/-! ## `url.Values.Encode` (used by `Client.Do` for `searchBlended`) -/

/-- Go string comparison `a < b`: lexicographic byte order (the keys in
use are ASCII, for which character order and byte order coincide). -/
def ltChars : List Char → List Char → Bool
  | [], [] => false
  | [], _ :: _ => true
  | _ :: _, [] => false
  | a :: xs, b :: ys =>
      if a.toNat < b.toNat then true
      else if b.toNat < a.toNat then false
      else ltChars xs ys

/-- Insertion into a key-sorted association list (`url.Values.Encode` sorts
its keys with `sort.Strings`; the keys used below are distinct, for which
insertion sort produces exactly the sorted order). -/
def insertSortedKV (p : String × String) :
    List (String × String) → List (String × String)
  | [] => [p]
  | q :: qs =>
      if ltChars q.1.data p.1.data then q :: insertSortedKV p qs
      else p :: q :: qs

def sortByKey (l : List (String × String)) : List (String × String) :=
  l.foldr insertSortedKV []

def joinAmp : List String → String
  | [] => ""
  | [s] => s
  | s :: rest => s ++ "&" ++ joinAmp rest

/-- `url.Values.Encode`: keys sorted, each key and value percent-escaped
with `QueryEscape`, joined as `k=v` pairs with `&`.  Each key carries a
single value here (`q.Set` is used throughout). -/
def urlValuesEncode (l : List (String × String)) : String :=
  joinAmp ((sortByKey l).map (fun p => queryEscape p.1 ++ "=" ++ queryEscape p.2))

/-- The `url.Values` assembled by `searchBlended`
(`internal/api/linkedin.go`), in `q.Set` call order. -/
def searchBlendedValues (keywords filters : String) (start count : Int) :
    List (String × String) :=
  [("count", natRepr (searchCountClamp count)),
   ("filters", filters),
   ("origin", "GLOBAL_SEARCH_HEADER"),
   ("q", "all"),
   ("start", natRepr (searchStartClamp start)),
   ("queryContext", "List(spellCorrectionEnabled->true,relatedSearchesEnabled->true,kcardTypes->PROFILE|COMPANY)"),
   ("keywords", keywords)]

/-- The raw query `searchBlended` sends: its `url.Values` passed through
`Client.Do`, which calls `query.Encode()`. -/
def searchBlendedRawQuery (keywords filters : String) (start count : Int) : String :=
  urlValuesEncode (searchBlendedValues keywords filters start count)

/-! ## Request executor (`internal/api/client.go`)

The executor is modelled as a pure function: the HTTP exchange is an
*oracle argument* (`resp`), so "no request is issued" is expressed as the
result being the same for every possible response.  Headers, the JSON
decode step and transport errors carry no claim and are not modelled;
the credential precondition, URL assembly and status classification are. -/

/-- `auth.Cookies`. -/
structure CookiesM where
  LiAt : String
  JSessionID : String
deriving Repr, DecidableEq

/-- `HTTPError` from `internal/api/client.go`. -/
structure HTTPErrorM where
  Method : String
  URL : String
  StatusCode : Nat
  Body : String
deriving Repr, DecidableEq

/-- The error taxonomy of `doInternal` (transport and decode errors carry
no claim; the `decode` constructor only records that the kind exists). -/
inductive DoError where
  | auth : String → DoError
  | http : HTTPErrorM → DoError
  | decode : String → DoError
deriving Repr, DecidableEq

/-- The client configuration used by `doInternal`: base URL (scheme+host
and path, as parsed from e.g. `https://www.linkedin.com/voyager/api`) and
credentials. -/
structure ClientM where
  baseHost : String
  basePath : String
  cookies : CookiesM
deriving Repr, DecidableEq

/-- An HTTP response as seen by `doInternal` (status and the body bytes
read subject to the 5 MiB limit). -/
structure HTTPResp where
  status : Nat
  body : String
deriving Repr, DecidableEq

/-- `strings.TrimSuffix(s, "/")`. -/
def trimSuffixSlash (s : String) : String :=
  if s.data.getLast? = some '/' then String.mk s.data.dropLast else s

/-- `strings.TrimPrefix(path, "/")`. -/
def trimPrefixSlash (s : String) : String :=
  match s.data with
  | '/' :: rest => String.mk rest
  | _ => s

/-- The request URL `u.String()` assembled by `doInternal`:
`u.Path = TrimSuffix(base.Path, "/") + "/" + TrimPrefix(path, "/")` and
`u.RawQuery = rawQuery` when non-empty.  (The bases and paths in use are
plain ASCII without characters `URL.String` would re-escape.) -/
def requestURL (c : ClientM) (path rawQuery : String) : String :=
  c.baseHost ++ trimSuffixSlash c.basePath ++ "/" ++ trimPrefixSlash path
    ++ (if rawQuery = "" then "" else "?" ++ rawQuery)

/-- The fixed body of the 429 error. -/
def rateLimitedBody : String := "rate limited by LinkedIn, try again later"

/-- The body snippet of a non-429 status error: trimmed, and truncated to
2000 with an appended ellipsis when longer. -/
def snippetOf (body : String) : String :=
  let t := trimSpace body
  if t.length > 2000 then String.mk (t.data.take 2000) ++ "…" else t

/-- The status classification of `doInternal`: 429 first, then any other
status outside 200–299; `none` for 2xx. -/
def classifyStatus (method urlStr : String) (resp : HTTPResp) :
    Option HTTPErrorM :=
  if resp.status = 429 then
    some ⟨method, urlStr, 429, rateLimitedBody⟩
  else if resp.status < 200 ∨ 300 ≤ resp.status then
    some ⟨method, urlStr, resp.status, snippetOf resp.body⟩
  else none

/-- The message of the credential precondition error. -/
def missingCookiesMsg : String := "missing auth cookies (li_at, JSESSIONID)"

/-- `doInternal`: credential check (before any I/O — note the result below
is independent of `resp` in that case), URL assembly, status
classification, then the output stage (`out == nil` or empty body are
no-ops; a successful decode is abstracted as returning the body). -/
def doInternal (c : ClientM) (method path rawQuery : String)
    (body : Option String) (hasOut : Bool) (resp : HTTPResp) :
    Except DoError (Option String) :=
  if c.cookies.LiAt = "" ∨ c.cookies.JSessionID = "" then
    .error (.auth missingCookiesMsg)
  else
    let _ := body
    let u := requestURL c path rawQuery
    match classifyStatus method u resp with
    | some e => .error (.http e)
    | none =>
        if !hasOut then .ok none
        else if resp.body = "" then .ok none
        else .ok (some resp.body)

/-- `Client.DoRaw`: pre-built raw query, no header overrides. -/
def DoRaw (c : ClientM) (method path rawQuery : String)
    (body : Option String) (hasOut : Bool) (resp : HTTPResp) :
    Except DoError (Option String) :=
  doInternal c method path rawQuery body hasOut resp

/-- `Client.DoMessaging`: same pipeline with content-type/accept header
overrides (headers do not influence any modelled behaviour). -/
def DoMessaging (c : ClientM) (method path rawQuery : String)
    (body : Option String) (hasOut : Bool) (resp : HTTPResp) :
    Except DoError (Option String) :=
  doInternal c method path rawQuery body hasOut resp

/-- `Client.Do`: a standard key/value query encoded by `url.Values.Encode`
(`nil` query means an empty raw query). -/
def Do (c : ClientM) (method path : String)
    (query : Option (List (String × String))) (body : Option String)
    (hasOut : Bool) (resp : HTTPResp) : Except DoError (Option String) :=
  let rawQuery :=
    match query with
    | some q => urlValuesEncode q
    | none => ""
  doInternal c method path rawQuery body hasOut resp

/-! ## Tracking token and write payloads
(`internal/api/linkedin.go`, `auth.RandomTrackingID`) -/

/-- Modelled from the spec: `auth.RandomTrackingID` is code of this
repository that is not under `src/` (only its callers in
`internal/api/linkedin.go` are).  Per spec §4.1 it generates 16
cryptographically random bytes and encodes byte value `b` as the Unicode
code point `U+00b` (Latin-1 identity mapping); a failure of the random
source is surfaced as an error, not replaced by a fixed or zero buffer.
The random source outcome is the oracle argument `randRead`; the Go
signature `(string, error)` is the returned pair. -/
def RandomTrackingID (randRead : Except String (List Nat)) :
    String × Option String :=
  match randRead with
  | .error e => ("", some e)
  | .ok bs => (String.mk (bs.map (fun b => Char.ofNat (b % 256))), none)

/-- The `CreatePost` payload (`internal/api/linkedin.go`): a Go map
literal, then `trackingId` and `owner` assigned only when non-empty.  The
map is modelled as its key/value pairs; only key membership matters. -/
def createPostPayload (text trackingID ownerURN : String) :
    List (String × JValue) :=
  [("commentary", .jobj [("text", .jstr text)]),
   ("visibility", .jstr "PUBLIC"),
   ("distribution", .jobj
     [("feedDistribution", .jstr "MAIN_FEED"),
      ("targetEntities", .jarr []),
      ("thirdPartyDistributionChannels", .jarr []),
      ("thirdPartyDistributionTargeting", .jarr [])]),
   ("lifecycleState", .jstr "PUBLISHED"),
   ("isReshareDisabledByAuthor", .jbool false),
   ("shareMediaCategory", .jstr "NONE")]
  ++ (if trackingID = "" then [] else [("trackingId", .jstr trackingID)])
  ++ (if ownerURN = "" then [] else [("owner", .jstr ownerURN)])

/-- `CreatePost`'s payload as assembled from the random-source outcome:
`trackingID, _ := auth.RandomTrackingID()` (the error is discarded) and
the field is set only when `trackingID != ""`. -/
def createPostPayloadFromRand (randRead : Except String (List Nat))
    (text ownerURN : String) : List (String × JValue) :=
  createPostPayload text (RandomTrackingID randRead).1 ownerURN

/-- The `Connect` payload (`internal/api/linkedin.go`). -/
def connectPayload (profileID note trackingID : String) :
    List (String × JValue) :=
  [("emberEntityName", .jstr "growth/invitation/norm-invitation"),
   ("invitee", .jobj
     [("com.linkedin.voyager.growth.invitation.InviteeProfile", .jobj
       [("profileId", .jstr profileID)])])]
  ++ (if trackingID = "" then [] else [("trackingId", .jstr trackingID)])
  ++ (if trimSpace note = "" then [] else [("customMessage", .jstr note)])

/-- `Connect`'s payload as assembled from the random-source outcome. -/
def connectPayloadFromRand (randRead : Except String (List Nat))
    (profileID note : String) : List (String × JValue) :=
  connectPayload profileID note (RandomTrackingID randRead).1

/-! ## `GetMe` extraction (`internal/api/linkedin.go`) -/

/-- `Me` from `internal/api/linkedin.go`. -/
structure MeM where
  PublicIdentifier : String
  FirstName : String
  LastName : String
  Occupation : String
  MiniProfileEntityURN : String
  MemberID : String
  MemberURN : String
deriving Repr, DecidableEq

/-- `urnID`: trailing segment after the last `:`; empty when the input is
blank, has no colon, or ends in a colon. -/
def urnID (urn : String) : String :=
  let t := (trimSpace urn).data
  if t = [] then ""
  else
    let after := (t.reverse.takeWhile (fun c => c ≠ ':')).reverse
    if (':' ∈ t) ∧ after ≠ [] then String.mk after else ""

/-- The extraction performed by `GetMe` on a successfully decoded response
document: each field probes `miniProfile.*` first and falls back to
`data.miniProfile.*` (first/last names fall back together). -/
def parseMe (raw : List (String × JValue)) : MeM :=
  let mini0 := getStringM raw ["miniProfile", "entityUrn"]
  let miniEntityURN :=
    if mini0 = "" then getStringM raw ["data", "miniProfile", "entityUrn"]
    else mini0
  let pub0 := getStringM raw ["miniProfile", "publicIdentifier"]
  let publicID :=
    if pub0 = "" then getStringM raw ["data", "miniProfile", "publicIdentifier"]
    else pub0
  let first0 := getStringM raw ["miniProfile", "firstName"]
  let last0 := getStringM raw ["miniProfile", "lastName"]
  let first :=
    if first0 = "" ∧ last0 = "" then
      getStringM raw ["data", "miniProfile", "firstName"]
    else first0
  let last :=
    if first0 = "" ∧ last0 = "" then
      getStringM raw ["data", "miniProfile", "lastName"]
    else last0
  let occ0 := getStringM raw ["miniProfile", "occupation"]
  let occupation :=
    if occ0 = "" then getStringM raw ["data", "miniProfile", "occupation"]
    else occ0
  let memberID := urnID miniEntityURN
  let memberURN := if memberID = "" then "" else "urn:li:member:" ++ memberID
  { PublicIdentifier := publicID
    FirstName := first
    LastName := last
    Occupation := occupation
    MiniProfileEntityURN := miniEntityURN
    MemberID := memberID
    MemberURN := memberURN }

/-- `GetMe` after the `Do` call: an executor error propagates, a decoded
document always parses to a `Me` with a nil error. -/
def getMe (doResult : Except DoError (List (String × JValue))) :
    Except DoError MeM :=
  match doResult with
  | .error e => .error e
  | .ok raw => .ok (parseMe raw)

mutual
/-- All key names occurring anywhere in a JSON document (used to state
"no `miniProfile` data is present anywhere"). -/
def allKeys : JValue → List String
  | .jobj fs => allKeysFields fs
  | .jarr xs => allKeysArr xs
  | _ => []

def allKeysFields : List (String × JValue) → List String
  | [] => []
  | (k, v) :: rest => k :: (allKeys v ++ allKeysFields rest)

def allKeysArr : List JValue → List String
  | [] => []
  | v :: rest => allKeys v ++ allKeysArr rest
end

/-! ## Executable substring test (for statements about assembled queries) -/

/-- `pat` is a prefix of `s` (character lists). -/
def prefixChars : List Char → List Char → Bool
  | [], _ => true
  | _ :: _, [] => false
  | a :: xs, b :: ys => a = b && prefixChars xs ys

/-- `strings.Contains`: `pat` occurs contiguously inside `s`. -/
def containsSub : List Char → List Char → Bool
  | pat, [] => prefixChars pat []
  | pat, c :: rest => prefixChars pat (c :: rest) || containsSub pat rest

/-! ## Sorting helpers: a sorted permutation with pairwise-distinct keys
is unique.  Used to pin down the output of the relationally modelled
`sort.Slice` calls on inputs with distinct timestamps. -/

theorem pairwise_le_of_chain'_le {α : Type} (key : α → Int) {l : List α}
    (h : List.Chain' (fun a b => key a ≤ key b) l) :
    List.Pairwise (fun a b => key a ≤ key b) l := by
  haveI : IsTrans α (fun a b => key a ≤ key b) :=
    ⟨fun _ _ _ hab hbc => le_trans hab hbc⟩
  exact List.chain'_iff_pairwise.mp h

theorem eq_of_perm_of_chain'_of_nodupKeys {α : Type} (key : α → Int)
    {l₁ l₂ : List α} (hp : l₁.Perm l₂)
    (h₁ : List.Chain' (fun a b => key a ≤ key b) l₁)
    (h₂ : List.Chain' (fun a b => key a ≤ key b) l₂)
    (hn : (l₁.map key).Nodup) : l₁ = l₂ := by
  haveI : IsAntisymm α (fun a b => key a < key b) :=
    ⟨fun a b hab hba => absurd hba (not_lt.mpr hab.le)⟩
  have hn₂ : (l₂.map key).Nodup := ((hp.map key).nodup_iff).mp hn
  have strict : ∀ {l : List α}, List.Chain' (fun a b => key a ≤ key b) l →
      (l.map key).Nodup → List.Pairwise (fun a b => key a < key b) l := by
    intro l hc hnd
    have hle := pairwise_le_of_chain'_le key hc
    have hne : List.Pairwise (fun a b => key a ≠ key b) l :=
      List.pairwise_map.mp hnd
    exact (hle.and hne).imp (fun h => lt_of_le_of_ne h.1 h.2)
  exact List.eq_of_perm_of_sorted hp (strict h₁ hn) (strict h₂ hn₂)

theorem sortedBy_iff_chain' {α : Type} (le : α → α → Bool) :
    ∀ {l : List α}, sortedBy le l = true ↔ List.Chain' (fun a b => le a b = true) l
  | [] => by simp [sortedBy]
  | [a] => by simp [sortedBy]
  | a :: b :: t => by
      rw [sortedBy, Bool.and_eq_true, List.chain'_cons,
        sortedBy_iff_chain' le (l := b :: t)]

/-- Conversations: a sorted permutation is unique when the sort keys of the
pre-sort list are pairwise distinct. -/
theorem conv_sorted_unique {l₁ l₂ : List Conversation} (hp : l₁.Perm l₂)
    (h₁ : sortedBy (fun a b => convLastTs b ≤ convLastTs a) l₁ = true)
    (h₂ : sortedBy (fun a b => convLastTs b ≤ convLastTs a) l₂ = true)
    (hn : (l₁.map convLastTs).Nodup) : l₁ = l₂ := by
  have conv : ∀ {l : List Conversation},
      sortedBy (fun a b => convLastTs b ≤ convLastTs a) l = true →
      List.Chain' (fun a b => (fun c => -convLastTs c) a ≤ (fun c => -convLastTs c) b) l := by
    intro l h
    refine ((sortedBy_iff_chain' _).mp h).imp ?_
    intro a b hab
    simpa using neg_le_neg (of_decide_eq_true hab)
  have hn' : (l₁.map (fun c => -convLastTs c)).Nodup := by
    have : l₁.map (fun c => -convLastTs c) = (l₁.map convLastTs).map (fun n => -n) := by
      rw [List.map_map]; rfl
    rw [this]
    exact hn.map neg_injective
  exact eq_of_perm_of_chain'_of_nodupKeys (fun c => -convLastTs c) hp
    (conv h₁) (conv h₂) hn'

/-- Messages: a sorted permutation is unique when the timestamps of the
pre-sort list are pairwise distinct. -/
theorem msg_sorted_unique {l₁ l₂ : List Message} (hp : l₁.Perm l₂)
    (h₁ : sortedBy (fun a b => a.DeliveredAt ≤ b.DeliveredAt) l₁ = true)
    (h₂ : sortedBy (fun a b => a.DeliveredAt ≤ b.DeliveredAt) l₂ = true)
    (hn : (l₁.map Message.DeliveredAt).Nodup) : l₁ = l₂ := by
  have conv : ∀ {l : List Message},
      sortedBy (fun a b => a.DeliveredAt ≤ b.DeliveredAt) l = true →
      List.Chain' (fun a b => Message.DeliveredAt a ≤ Message.DeliveredAt b) l := by
    intro l h
    refine ((sortedBy_iff_chain' _).mp h).imp ?_
    intro a b hab
    exact of_decide_eq_true hab
  exact eq_of_perm_of_chain'_of_nodupKeys Message.DeliveredAt hp
    (conv h₁) (conv h₂) hn

/-! ## Byte-level facts about the escapers -/

theorem upperHexDigit_ne_space (k : Nat) : upperHexDigit k ≠ ' ' := by
  unfold upperHexDigit
  by_cases h : k < 16
  · interval_cases k <;> decide
  · rw [List.getD_eq_default _ _ (by simpa using Nat.le_of_not_lt h)]
    decide

theorem upperHexDigit_ne_plus (k : Nat) : upperHexDigit k ≠ '+' := by
  unfold upperHexDigit
  by_cases h : k < 16
  · interval_cases k <;> decide
  · rw [List.getD_eq_default _ _ (by simpa using Nat.le_of_not_lt h)]
    decide

theorem charOfNat_ne_space : ∀ b : Nat, b < 128 → b ≠ 32 → Char.ofNat b ≠ ' ' := by
  decide

theorem shouldEscapeQueryComponent_false_bounds (b : Nat)
    (h : shouldEscapeQueryComponent b = false) : b < 128 ∧ b ≠ 32 := by
  simp [shouldEscapeQueryComponent, isAlphaNumByte] at h
  omega

theorem shouldEscapePathSegment_false_bounds (b : Nat)
    (h : shouldEscapePathSegment b = false) : b < 128 ∧ b ≠ 32 := by
  unfold shouldEscapePathSegment at h
  split at h
  · rename_i halnum
    simp [isAlphaNumByte] at halnum
    omega
  · split at h
    · rename_i hmark
      simp at hmark
      omega
    · split at h
      · rename_i hres
        simp at hres
        omega
      · exact absurd h (by simp)

theorem space_notin_pctEncode (b : Nat) : ' ' ∉ pctEncode b := by
  intro hmem
  simp only [pctEncode, List.mem_cons, List.not_mem_nil, or_false] at hmem
  rcases hmem with h | h | h
  · exact absurd h (by decide)
  · exact upperHexDigit_ne_space _ h.symm
  · exact upperHexDigit_ne_space _ h.symm

theorem plus_notin_pctEncode (b : Nat) : '+' ∉ pctEncode b := by
  intro hmem
  simp only [pctEncode, List.mem_cons, List.not_mem_nil, or_false] at hmem
  rcases hmem with h | h | h
  · exact absurd h (by decide)
  · exact upperHexDigit_ne_plus _ h.symm
  · exact upperHexDigit_ne_plus _ h.symm

theorem space_notin_pathEscapeByte (b : Nat) : ' ' ∉ pathEscapeByte b := by
  unfold pathEscapeByte
  split
  · exact space_notin_pctEncode b
  · rename_i hesc
    intro hmem
    simp only [List.mem_singleton] at hmem
    have hb := shouldEscapePathSegment_false_bounds b (by simpa using hesc)
    exact charOfNat_ne_space b hb.1 hb.2 hmem.symm

theorem space_notin_queryEscapeByte (b : Nat) : ' ' ∉ queryEscapeByte b := by
  unfold queryEscapeByte
  split
  · decide
  · split
    · exact space_notin_pctEncode b
    · rename_i hne hesc
      intro hmem
      simp only [List.mem_singleton] at hmem
      have hb := shouldEscapeQueryComponent_false_bounds b (by simpa using hesc)
      exact charOfNat_ne_space b hb.1 hb.2 hmem.symm

theorem space_notin_queryEscape (s : String) : ' ' ∉ (queryEscape s).data := by
  intro hmem
  rw [queryEscape] at hmem
  rcases List.mem_flatMap.mp hmem with ⟨b, _, hb⟩
  exact space_notin_queryEscapeByte b hb

theorem space_notin_pathEscape (s : String) : ' ' ∉ (pathEscape s).data := by
  intro hmem
  rw [pathEscape] at hmem
  rcases List.mem_flatMap.mp hmem with ⟨b, _, hb⟩
  exact space_notin_pathEscapeByte b hb

theorem byte32_mem_utf8Bytes {s : String} (h : ' ' ∈ s.data) :
    32 ∈ utf8Bytes s :=
  List.mem_flatMap.mpr ⟨' ', h, by decide⟩

theorem plus_mem_queryEscape {s : String} (h : ' ' ∈ s.data) :
    '+' ∈ (queryEscape s).data := by
  rw [queryEscape]
  exact List.mem_flatMap.mpr ⟨32, byte32_mem_utf8Bytes h, by decide⟩

/-! ## `searchGraphQL` keyword-encoding facts -/

theorem plus_notin_searchGraphQLEscapedKW (s : String) :
    '+' ∉ (searchGraphQLEscapedKW s).data := by
  intro hmem
  rw [searchGraphQLEscapedKW] at hmem
  rcases List.mem_flatMap.mp hmem with ⟨c, _, hc⟩
  by_cases h : c = '+'
  · simp only [h, if_pos rfl] at hc
    exact absurd hc (by decide)
  · simp only [if_neg h, List.mem_singleton] at hc
    exact h hc.symm

theorem space_notin_searchGraphQLEscapedKW (s : String) :
    ' ' ∉ (searchGraphQLEscapedKW s).data := by
  intro hmem
  rw [searchGraphQLEscapedKW] at hmem
  rcases List.mem_flatMap.mp hmem with ⟨c, hcmem, hc⟩
  by_cases h : c = '+'
  · simp only [h, if_pos rfl] at hc
    exact absurd hc (by decide)
  · simp only [if_neg h, List.mem_singleton] at hc
    exact space_notin_pathEscape s (hc ▸ hcmem)

theorem prefixChars_append_self :
    ∀ pat rest : List Char, prefixChars pat (pat ++ rest) = true
  | [], _ => rfl
  | c :: pt, rest => by
      simp [prefixChars, prefixChars_append_self pt rest]

theorem containsSub_nil_left : ∀ l : List Char, containsSub [] l = true
  | [] => rfl
  | c :: rest => by simp [containsSub, prefixChars]

theorem containsSub_append_self :
    ∀ (pre pat post : List Char), containsSub pat (pre ++ (pat ++ post)) = true
  | [], pat, post => by
      cases pat with
      | nil => simpa using containsSub_nil_left post
      | cons p pt =>
          simp only [List.nil_append, containsSub, Bool.or_eq_true]
          exact Or.inl (by simpa using prefixChars_append_self (p :: pt) post)
  | c :: pre', pat, post => by
      have ih := containsSub_append_self pre' pat post
      simp [containsSub, ih]

theorem pct20_in_searchGraphQLEscapedKW {s : String} (h : ' ' ∈ s.data) :
    containsSub ("%20").data (searchGraphQLEscapedKW s).data = true := by
  rcases List.append_of_mem (byte32_mem_utf8Bytes h) with ⟨l1, l2, hsplit⟩
  have hpe : (pathEscape s).data =
      l1.flatMap pathEscapeByte ++ ("%20".data ++ l2.flatMap pathEscapeByte) := by
    rw [pathEscape]
    show (utf8Bytes s).flatMap pathEscapeByte = _
    rw [hsplit, List.flatMap_append, List.flatMap_cons]
    rfl
  have hrepl : (searchGraphQLEscapedKW s).data =
      (l1.flatMap pathEscapeByte).flatMap
          (fun c => if c = '+' then "%20".data else [c]) ++
        ("%20".data ++
          (l2.flatMap pathEscapeByte).flatMap
            (fun c => if c = '+' then "%20".data else [c])) := by
    rw [searchGraphQLEscapedKW]
    show ((pathEscape s).data.flatMap fun c => if c = '+' then "%20".data else [c]) = _
    rw [hpe, List.flatMap_append, List.flatMap_append]
    rfl
  rw [hrepl]
  exact containsSub_append_self _ _ _

/-! ## Claim C6 -/

set_option maxRecDepth 20000 in
/-- C6, counterexample: the claim asserts that *both* search
implementations encode a space in the keywords as literal `%20` and never
as `+`.  For the keyword `"a b"`, `searchBlended` — which routes the
keywords through `url.Values.Encode` via `Client.Do` — produces a raw
query containing `keywords=a+b` and no `%20` anywhere, so the claim is
false for `searchBlended`. -/
theorem c6_counterexample_blended_space_as_plus :
    ' ' ∈ ("a b" : String).data ∧
    containsSub ("keywords=a+b").data
      (searchBlendedRawQuery "a b" "List(resultType->PEOPLE)" 0 10).data = true ∧
    containsSub ("%20").data
      (searchBlendedRawQuery "a b" "List(resultType->PEOPLE)" 0 10).data = false := by
  decide

/-- C6, amended: for every keyword containing a space, `searchGraphQL`'s
hand-built keyword encoding renders the space as literal `%20` (the
encoded keyword contains `%20`, and no `+` and no raw space), whereas
`searchBlended`'s keywords, passed through the standard key/value
encoding (`url.Values.Encode` / `QueryEscape`) of `Do`, have each space
rendered as `+` (the encoded value contains a `+` and no raw space). -/
theorem c6_amended_space_encoding (kw : String) (h : ' ' ∈ kw.data) :
    containsSub ("%20").data (searchGraphQLEscapedKW kw).data = true ∧
    '+' ∉ (searchGraphQLEscapedKW kw).data ∧
    ' ' ∉ (searchGraphQLEscapedKW kw).data ∧
    '+' ∈ (queryEscape kw).data ∧
    ' ' ∉ (queryEscape kw).data :=
  ⟨pct20_in_searchGraphQLEscapedKW h, plus_notin_searchGraphQLEscapedKW kw,
   space_notin_searchGraphQLEscapedKW kw, plus_mem_queryEscape h,
   space_notin_queryEscape kw⟩

/-- Witness for `c6_amended_space_encoding` at the keyword `"a b"`. -/
theorem c6_amended_space_encoding_witness :
    ' ' ∈ ("a b" : String).data ∧
    (containsSub ("%20").data (searchGraphQLEscapedKW "a b").data = true ∧
     '+' ∉ (searchGraphQLEscapedKW "a b").data ∧
     ' ' ∉ (searchGraphQLEscapedKW "a b").data ∧
     '+' ∈ (queryEscape "a b").data ∧
     ' ' ∉ (queryEscape "a b").data) :=
  ⟨by decide, c6_amended_space_encoding "a b" (by decide)⟩

/-! ## Claim C10 -/

set_option maxRecDepth 20000 in
/-- C10: the keyword encoding of `searchGraphQL` is not injective —
`url.PathEscape` leaves a literal `+` unescaped and the subsequent
`+ → %20` replacement collides it with the encoding of a space: the
distinct keywords `"a b"` and `"a+b"` produce byte-identical raw query
fragments, and a literal `+` is transmitted as `%20`, i.e. as a space. -/
theorem c10_searchGraphQL_keyword_encoding_not_injective :
    ("a b" : String) ≠ "a+b" ∧
    searchGraphQLEscapedKW "a b" = searchGraphQLEscapedKW "a+b" ∧
    searchGraphQLRawQuery "a b" "PEOPLE" 0
        "voyagerSearchDashClusters.ef3d0937fb65bd7812e32e5a85028e79" =
      searchGraphQLRawQuery "a+b" "PEOPLE" 0
        "voyagerSearchDashClusters.ef3d0937fb65bd7812e32e5a85028e79" ∧
    searchGraphQLEscapedKW "+" = "%20" := by
  decide

/-! ## Claim C5 -/

/-- C5: a failure of the random source is surfaced by `RandomTrackingID`
as a returned error with an empty (not fixed-or-zero 16-byte) token, and
both callers — `CreatePost` and `Connect`, which keep the token only when
it is non-empty — then omit the `trackingId` field from their payloads
entirely. -/
theorem c5_tracking_token_failure_omitted
    (e text ownerURN profileID note : String) :
    RandomTrackingID (.error e) = ("", some e) ∧
    (RandomTrackingID (.error e)).1.length = 0 ∧
    "trackingId" ∉ (createPostPayloadFromRand (.error e) text ownerURN).map Prod.fst ∧
    "trackingId" ∉ (connectPayloadFromRand (.error e) profileID note).map Prod.fst := by
  refine ⟨rfl, rfl, ?_, ?_⟩
  · show "trackingId" ∉ (createPostPayload text "" ownerURN).map Prod.fst
    unfold createPostPayload
    by_cases ho : ownerURN = "" <;> simp [ho]
  · show "trackingId" ∉ (connectPayload profileID note "").map Prod.fst
    unfold connectPayload
    by_cases hn : trimSpace note = "" <;> simp [hn]

/-! ## Claim C8 -/

/-- C8: whenever either credential token is empty, every request entry
point (`Do`, `DoRaw`, `DoMessaging`) returns the authentication error —
for every method, path, query, body, output target *and every possible
response*, i.e. the check precedes and forestalls any network I/O. -/
theorem c8_missing_credentials_block_requests
    (c : ClientM) (method path rawQuery : String)
    (query : Option (List (String × String))) (body : Option String)
    (hasOut : Bool) (resp : HTTPResp)
    (h : c.cookies.LiAt = "" ∨ c.cookies.JSessionID = "") :
    DoRaw c method path rawQuery body hasOut resp =
      .error (.auth missingCookiesMsg) ∧
    DoMessaging c method path rawQuery body hasOut resp =
      .error (.auth missingCookiesMsg) ∧
    Do c method path query body hasOut resp =
      .error (.auth missingCookiesMsg) := by
  refine ⟨?_, ?_, ?_⟩
  · unfold DoRaw doInternal
    rw [if_pos h]
  · unfold DoMessaging doInternal
    rw [if_pos h]
  · unfold Do doInternal
    rw [if_pos h]

/-- Witness for `c8_missing_credentials_block_requests`: an empty `li_at`
cookie blocks a `GET /me` even when the oracle response is a 200. -/
theorem c8_missing_credentials_block_requests_witness :
    (let c : ClientM := ⟨"https://www.linkedin.com", "/voyager/api", ⟨"", "ajax:tok"⟩⟩
     DoRaw c "GET" "/me" "" none true ⟨200, "{}"⟩ =
        .error (.auth missingCookiesMsg) ∧
     DoMessaging c "GET" "/me" "" none true ⟨200, "{}"⟩ =
        .error (.auth missingCookiesMsg) ∧
     Do c "GET" "/me" none none true ⟨200, "{}"⟩ =
        .error (.auth missingCookiesMsg)) :=
  c8_missing_credentials_block_requests
    ⟨"https://www.linkedin.com", "/voyager/api", ⟨"", "ajax:tok"⟩⟩
    "GET" "/me" "" none none true ⟨200, "{}"⟩ (Or.inl rfl)

/-! ## Claim C2 -/

theorem snippetOf_length_le (b : String) : (snippetOf b).length ≤ 2001 := by
  simp only [snippetOf]
  split
  · rw [String.length_append]
    have h1 : (String.mk ((trimSpace b).data.take 2000)).length ≤ 2000 := by
      show ((trimSpace b).data.take 2000).length ≤ 2000
      simp
    have h2 : ("…" : String).length = 1 := rfl
    omega
  · omega

/-- C2: with valid credentials, a 429 response makes the executor return
the distinguished rate-limited `HTTPError` (status 429, fixed body), and
any other status outside 200–299 returns an `HTTPError` carrying the same
method and URL, the actual status and a body snippet of bounded length
(at most 2001 characters); the two errors are distinguishable (never
equal, their status codes differ).  `DoRaw`, `DoMessaging` and `Do`
all share this classification through `doInternal`. -/
theorem c2_status_classification
    (c : ClientM) (method path rawQuery : String) (body : Option String)
    (hasOut : Bool) (s : Nat) (respBody : String)
    (hli : c.cookies.LiAt ≠ "") (hjs : c.cookies.JSessionID ≠ "")
    (hs : s ≠ 429) (hrange : s < 200 ∨ 300 ≤ s) :
    doInternal c method path rawQuery body hasOut ⟨429, respBody⟩ =
      .error (.http ⟨method, requestURL c path rawQuery, 429, rateLimitedBody⟩) ∧
    doInternal c method path rawQuery body hasOut ⟨s, respBody⟩ =
      .error (.http ⟨method, requestURL c path rawQuery, s, snippetOf respBody⟩) ∧
    (⟨method, requestURL c path rawQuery, s, snippetOf respBody⟩ : HTTPErrorM) ≠
      ⟨method, requestURL c path rawQuery, 429, rateLimitedBody⟩ ∧
    (snippetOf respBody).length ≤ 2001 ∧
    DoRaw c method path rawQuery body hasOut ⟨429, respBody⟩ =
      doInternal c method path rawQuery body hasOut ⟨429, respBody⟩ ∧
    DoMessaging c method path rawQuery body hasOut ⟨429, respBody⟩ =
      doInternal c method path rawQuery body hasOut ⟨429, respBody⟩ ∧
    Do c method path none body hasOut ⟨429, respBody⟩ =
      doInternal c method path "" body hasOut ⟨429, respBody⟩ := by
  have hcook : ¬ (c.cookies.LiAt = "" ∨ c.cookies.JSessionID = "") := by
    push_neg
    exact ⟨hli, hjs⟩
  refine ⟨?_, ?_, ?_, snippetOf_length_le respBody, rfl, rfl, rfl⟩
  · unfold doInternal
    rw [if_neg hcook]
    unfold classifyStatus
    simp
  · unfold doInternal
    rw [if_neg hcook]
    unfold classifyStatus
    simp only [if_neg hs]
    rw [if_pos hrange]
  · intro heq
    exact hs (congrArg HTTPErrorM.StatusCode heq)

/-- Witness for `c2_status_classification`: a configured client seeing a
403 with body `"denied"` versus a 429. -/
theorem c2_status_classification_witness :
    (let c : ClientM := ⟨"https://www.linkedin.com", "/voyager/api", ⟨"liat", "ajax:tok"⟩⟩
     doInternal c "GET" "/me" "" none true ⟨429, "denied"⟩ =
        .error (.http ⟨"GET", requestURL c "/me" "", 429, rateLimitedBody⟩) ∧
     doInternal c "GET" "/me" "" none true ⟨403, "denied"⟩ =
        .error (.http ⟨"GET", requestURL c "/me" "", 403, snippetOf "denied"⟩) ∧
     (⟨"GET", requestURL c "/me" "", 403, snippetOf "denied"⟩ : HTTPErrorM) ≠
        ⟨"GET", requestURL c "/me" "", 429, rateLimitedBody⟩ ∧
     (snippetOf "denied").length ≤ 2001 ∧
     DoRaw c "GET" "/me" "" none true ⟨429, "denied"⟩ =
        doInternal c "GET" "/me" "" none true ⟨429, "denied"⟩ ∧
     DoMessaging c "GET" "/me" "" none true ⟨429, "denied"⟩ =
        doInternal c "GET" "/me" "" none true ⟨429, "denied"⟩ ∧
     Do c "GET" "/me" none none true ⟨429, "denied"⟩ =
        doInternal c "GET" "/me" "" none true ⟨429, "denied"⟩) :=
  c2_status_classification
    ⟨"https://www.linkedin.com", "/voyager/api", ⟨"liat", "ajax:tok"⟩⟩
    "GET" "/me" "" none true 403 "denied"
    (by decide) (by decide) (by decide) (by omega)

/-! ## Claim C1 -/

theorem replaceChars_urn_eq_flatMap (l : List Char) :
    replaceChars urnReplacerPairs l =
      l.flatMap (fun c =>
        if c = ':' then "%3A".data
        else if c = '(' then "%28".data
        else if c = ')' then "%29".data
        else if c = ',' then "%2C".data
        else [c]) := by
  induction l with
  | nil => rfl
  | cons c cs ih =>
      rw [replaceChars, List.flatMap_cons, ih]
      congr 1
      by_cases h1 : c = ':'
      · simp [urnReplacerPairs, h1]
      · by_cases h2 : c = '('
        · simp [urnReplacerPairs, h2]
        · by_cases h3 : c = ')'
          · simp [urnReplacerPairs, h3]
          · by_cases h4 : c = ','
            · simp [urnReplacerPairs, h4]
            · have h1' : ¬(':' = c) := fun h => h1 h.symm
              have h2' : ¬('(' = c) := fun h => h2 h.symm
              have h3' : ¬(')' = c) := fun h => h3 h.symm
              have h4' : ¬(',' = c) := fun h => h4 h.symm
              simp [urnReplacerPairs, List.find?, h1, h2, h3, h4, h1', h2', h3', h4']

theorem specials_notin_encodeURNValue (urn : String) :
    ∀ sp ∈ ([':', '(', ')', ','] : List Char), sp ∉ (encodeURNValue urn).data := by
  intro sp hsp hmem
  have hdata : (encodeURNValue urn).data = replaceChars urnReplacerPairs urn.data := rfl
  rw [hdata, replaceChars_urn_eq_flatMap] at hmem
  rcases List.mem_flatMap.mp hmem with ⟨c, _, hc⟩
  fin_cases hsp <;>
    · by_cases h1 : c = ':' <;> by_cases h2 : c = '(' <;> by_cases h3 : c = ')' <;>
        by_cases h4 : c = ',' <;>
        simp only [h1, h2, h3, h4, if_pos, if_neg, if_true, if_false,
          List.mem_singleton] at hc <;>
      first
      | exact absurd hc.symm (by assumption)
      | simp_all

theorem digitChar_mem (k : Nat) :
    digitChar k ∈ (['0', '1', '2', '3', '4', '5', '6', '7', '8', '9'] : List Char) := by
  unfold digitChar
  by_cases h : k < 10
  · interval_cases k <;> decide
  · rw [List.getD_eq_default _ _ (by simpa using Nat.le_of_not_lt h)]
    decide

theorem natToDigitsAux_mem_digits :
    ∀ (fuel n : Nat) (c : Char), c ∈ natToDigitsAux fuel n →
      c ∈ (['0', '1', '2', '3', '4', '5', '6', '7', '8', '9'] : List Char) := by
  intro fuel
  induction fuel with
  | zero => intro n c h; simp [natToDigitsAux] at h
  | succ fuel ih =>
      intro n c h
      rw [natToDigitsAux] at h
      split at h
      · rcases List.mem_singleton.mp h with rfl
        exact digitChar_mem n
      · rcases List.mem_append.mp h with h | h
        · exact ih _ _ h
        · rcases List.mem_singleton.mp h with rfl
          exact digitChar_mem (n % 10)

theorem count_natRepr_eq_zero (n : Nat) {sp : Char}
    (hsp : sp ∉ (['0', '1', '2', '3', '4', '5', '6', '7', '8', '9'] : List Char)) :
    (natRepr n).data.count sp = 0 :=
  List.count_eq_zero.mpr (fun hmem => hsp (natToDigitsAux_mem_digits _ _ _ hmem))

/-- C1: `encodeURNValue` maps each `:`, `(`, `)`, `,` of its input to
`%3A`, `%28`, `%29`, `%2C` respectively and copies every other character
(stated as the character-wise expansion); consequently its output never
contains one of the four tuple characters, and the `variables` fragment
assembled by `ListConversations` is the literal tuple skeleton around the
rendered count and the encoded URN — its counts of `:`, `(`, `)`, `,`
are exactly those written by the format string (6, 5, 5 and 2),
independently of the profile URN. -/
theorem c1_encodeURNValue_and_variables (count : Int) (urn : String) :
    encodeURNValue urn = String.mk (urn.data.flatMap (fun c =>
        if c = ':' then "%3A".data
        else if c = '(' then "%28".data
        else if c = ')' then "%29".data
        else if c = ',' then "%2C".data
        else [c])) ∧
    (∀ sp ∈ ([':', '(', ')', ','] : List Char),
        sp ∉ (encodeURNValue urn).data) ∧
    listConversationsVariables count urn =
      "(query:(predicateUnions:List((conversationCategoryPredicate:(category:INBOX)))),count:"
        ++ natRepr (listConversationsCount count) ++ ",mailboxUrn:"
        ++ encodeURNValue urn ++ ")" ∧
    (listConversationsVariables count urn).data.count ':' = 6 ∧
    (listConversationsVariables count urn).data.count '(' = 5 ∧
    (listConversationsVariables count urn).data.count ')' = 5 ∧
    (listConversationsVariables count urn).data.count ',' = 2 := by
  have hchar : encodeURNValue urn = String.mk (urn.data.flatMap (fun c =>
      if c = ':' then "%3A".data
      else if c = '(' then "%28".data
      else if c = ')' then "%29".data
      else if c = ',' then "%2C".data
      else [c])) := by
    show String.mk (replaceChars urnReplacerPairs urn.data) = _
    rw [replaceChars_urn_eq_flatMap]
  refine ⟨hchar, specials_notin_encodeURNValue urn, rfl, ?_, ?_, ?_, ?_⟩ <;>
    · rw [listConversationsVariables]
      rw [String.data_append, String.data_append, String.data_append,
        String.data_append]
      rw [List.count_append, List.count_append, List.count_append,
        List.count_append]
      rw [count_natRepr_eq_zero _ (by decide),
        List.count_eq_zero.mpr (specials_notin_encodeURNValue urn _ (by decide))]
      decide

/-! ## Claim C4 -/

/-- C4: in every place where a reference may appear under a `*`-prefixed
key or a plain key — the conversation participant list, the conversation's
last message, and a message's sender — the parser tries the prefixed form
first and falls back to the plain form exactly when the prefixed form is
absent or resolves to nothing; in particular, whenever the prefixed form
is populated and resolves, its value alone determines the result. -/
theorem c4_prefixed_key_preference :
    (∀ (m : List (String × JValue)) (pidx : List (String × Participant))
        (refs : List JValue),
        lookupField m "*conversationParticipants" = some (.jarr refs) →
        collectParticipants pidx refs ≠ [] →
        resolveParts m pidx = collectParticipants pidx refs) ∧
    (∀ (m : List (String × JValue)) (pidx : List (String × Participant)),
        partsFromKey m pidx "*conversationParticipants" = none →
        resolveParts m pidx =
          (partsFromKey m pidx "conversationParticipants").getD []) ∧
    (∀ (m : List (String × JValue)) (pidx : List (String × Participant))
        (refs : List JValue),
        lookupField m "*conversationParticipants" = some (.jarr refs) →
        collectParticipants pidx refs = [] →
        resolveParts m pidx =
          (partsFromKey m pidx "conversationParticipants").getD []) ∧
    (∀ (m : List (String × JValue)) (midx : List (String × Message))
        (r : String) (msg : Message),
        lookupField m "*lastMessage" = some (.jstr r) → r ≠ "" →
        idxGet midx r = some msg →
        resolveLast m midx = some msg) ∧
    (∀ (m : List (String × JValue)) (midx : List (String × Message)),
        lastFromKey m midx "*lastMessage" = none →
        resolveLast m midx = lastFromKey m midx "lastMessage") ∧
    (∀ (m : List (String × JValue)) (pidx : List (String × Participant))
        (s : String),
        getStringM m ["*sender"] = s → s ≠ "" →
        (parseMessage m pidx).SenderURN = s) ∧
    (∀ (m : List (String × JValue)) (pidx : List (String × Participant)),
        getStringM m ["*sender"] = "" →
        (parseMessage m pidx).SenderURN = strOf (lookupField m "sender")) := by
  refine ⟨?_, ?_, ?_, ?_, ?_, ?_, ?_⟩
  · intro m pidx refs hlk hne
    unfold resolveParts partsFromKey
    rw [hlk]
    simp [hne]
  · intro m pidx hnone
    unfold resolveParts
    rw [hnone]
  · intro m pidx refs hlk hnil
    unfold resolveParts partsFromKey
    rw [hlk]
    simp [hnil]
  · intro m midx r msg hlk hr hidx
    unfold resolveLast lastFromKey
    rw [hlk]
    simp [hr, hidx, Option.orElse]
  · intro m midx hnone
    unfold resolveLast
    rw [hnone]
    rfl
  · intro m pidx s hs hne
    unfold parseMessage
    simp only [hs, if_neg hne]
  · intro m pidx hs
    simp [parseMessage, hs]

/-- Witness for `c4_prefixed_key_preference`: each conjunct applied at a
small concrete entity where its hypotheses hold. -/
theorem c4_prefixed_key_preference_witness :
    (resolveParts
        [("*conversationParticipants", JValue.jarr [JValue.jstr "p1"]),
         ("conversationParticipants", JValue.jarr [JValue.jstr "p2"])]
        [("p1", ⟨"p1", "Jane", "Doe", "pr1"⟩), ("p2", ⟨"p2", "Bob", "Ray", "pr2"⟩)] =
      collectParticipants
        [("p1", ⟨"p1", "Jane", "Doe", "pr1"⟩), ("p2", ⟨"p2", "Bob", "Ray", "pr2"⟩)]
        [JValue.jstr "p1"]) ∧
    (resolveParts [("conversationParticipants", JValue.jarr [JValue.jstr "p2"])]
        [("p2", ⟨"p2", "Bob", "Ray", "pr2"⟩)] =
      (partsFromKey [("conversationParticipants", JValue.jarr [JValue.jstr "p2"])]
        [("p2", ⟨"p2", "Bob", "Ray", "pr2"⟩)] "conversationParticipants").getD []) ∧
    (resolveParts
        [("*conversationParticipants", JValue.jarr [JValue.jstr "zz"]),
         ("conversationParticipants", JValue.jarr [JValue.jstr "p2"])]
        [("p2", ⟨"p2", "Bob", "Ray", "pr2"⟩)] =
      (partsFromKey
        [("*conversationParticipants", JValue.jarr [JValue.jstr "zz"]),
         ("conversationParticipants", JValue.jarr [JValue.jstr "p2"])]
        [("p2", ⟨"p2", "Bob", "Ray", "pr2"⟩)] "conversationParticipants").getD []) ∧
    (resolveLast
        [("*lastMessage", JValue.jstr "m1"), ("lastMessage", JValue.jstr "m2")]
        [("m1", ⟨"m1", "hi", "", "", 5⟩), ("m2", ⟨"m2", "yo", "", "", 7⟩)] =
      some ⟨"m1", "hi", "", "", 5⟩) ∧
    (resolveLast [("lastMessage", JValue.jstr "m2")]
        [("m2", ⟨"m2", "yo", "", "", 7⟩)] =
      lastFromKey [("lastMessage", JValue.jstr "m2")]
        [("m2", ⟨"m2", "yo", "", "", 7⟩)] "lastMessage") ∧
    ((parseMessage
        [("*sender", JValue.jstr "s1"), ("sender", JValue.jstr "s2")] []).SenderURN =
      "s1") ∧
    ((parseMessage [("sender", JValue.jstr "s2")] []).SenderURN =
      strOf (lookupField [("sender", JValue.jstr "s2")] "sender")) :=
  ⟨c4_prefixed_key_preference.1 _ _ [JValue.jstr "p1"] rfl (by decide),
   c4_prefixed_key_preference.2.1 _ _ rfl,
   c4_prefixed_key_preference.2.2.1 _ _ [JValue.jstr "zz"] rfl (by decide),
   c4_prefixed_key_preference.2.2.2.1 _ _ "m1" ⟨"m1", "hi", "", "", 5⟩ rfl
     (by decide) rfl,
   c4_prefixed_key_preference.2.2.2.2.1 _ _ rfl,
   c4_prefixed_key_preference.2.2.2.2.2.1 _ _ "s1" rfl (by decide),
   c4_prefixed_key_preference.2.2.2.2.2.2 _ _ rfl⟩

/-! ## Claim C9 -/

theorem mem_allKeysFields_of_lookupField {fs : List (String × JValue)}
    {k : String} {v : JValue} (h : lookupField fs k = some v) :
    k ∈ allKeysFields fs := by
  induction fs with
  | nil => simp [lookupField] at h
  | cons p rest ih =>
      rw [lookupField, List.find?] at h
      by_cases hk : p.1 = k
      · rcases p with ⟨k', v'⟩
        rw [allKeysFields]
        simp only at hk
        exact hk ▸ List.mem_cons_self _ _
      · rw [show (decide (p.1 = k)) = false from by simp [hk]] at h
        rcases p with ⟨k', v'⟩
        rw [allKeysFields]
        exact List.mem_cons_of_mem _ (List.mem_append_right _ (ih h))

theorem allKeys_subset_of_lookupField {fs : List (String × JValue)}
    {k : String} {v : JValue} (h : lookupField fs k = some v) :
    ∀ x ∈ allKeys v, x ∈ allKeysFields fs := by
  induction fs with
  | nil => simp [lookupField] at h
  | cons p rest ih =>
      intro x hx
      rw [lookupField, List.find?] at h
      by_cases hk : p.1 = k
      · rw [show (decide (p.1 = k)) = true from by simp [hk]] at h
        rcases p with ⟨k', v'⟩
        rw [allKeysFields]
        simp only [Option.map, Option.some.injEq] at h
        subst h
        exact List.mem_cons_of_mem _ (List.mem_append_left _ hx)
      · rw [show (decide (p.1 = k)) = false from by simp [hk]] at h
        rcases p with ⟨k', v'⟩
        rw [allKeysFields]
        exact List.mem_cons_of_mem _ (List.mem_append_right _ (ih h x hx))

theorem getStringM_of_no_miniProfile {raw : List (String × JValue)}
    (hnk : "miniProfile" ∉ allKeysFields raw) (p : List String) :
    getStringM raw ("miniProfile" :: p) = "" ∧
    getStringM raw ("data" :: "miniProfile" :: p) = "" := by
  constructor
  · unfold getStringM getStringV
    cases hmp : lookupField raw "miniProfile" with
    | none => rfl
    | some v => exact absurd (mem_allKeysFields_of_lookupField hmp) hnk
  · unfold getStringM getStringV
    cases hdata : lookupField raw "data" with
    | none => rfl
    | some v =>
        cases v with
        | jobj d =>
            show getStringV (.jobj d) ("miniProfile" :: p) = ""
            unfold getStringV
            cases hmp : lookupField d "miniProfile" with
            | none => rfl
            | some w =>
                have : "miniProfile" ∈ allKeysFields raw :=
                  allKeys_subset_of_lookupField hdata _
                    (by
                      show "miniProfile" ∈ allKeys (.jobj d)
                      rw [allKeys]
                      exact mem_allKeysFields_of_lookupField hmp)
                exact absurd this hnk
        | jnull => rfl
        | jbool b => rfl
        | jnum n => rfl
        | jstr s => rfl
        | jarr xs => rfl

/-- C9: a resolver that finds nothing returns a zero value and no error —
`parseConversationsPre` (hence every `ParseConversations` output) is empty
when `included` is absent or empty, and `GetMe` on a decoded document with
no `miniProfile` data anywhere returns the zero `Me` (every string field
empty) with a nil error. -/
theorem c9_soft_miss_zero_values (raw rawC : List (String × JValue))
    (out : List Conversation) :
    ("miniProfile" ∉ allKeysFields raw →
        parseMe raw = ⟨"", "", "", "", "", "", ""⟩ ∧
        getMe (.ok raw) = .ok (⟨"", "", "", "", "", "", ""⟩ : MeM)) ∧
    (lookupField rawC "included" = none →
        ParseConversationsRel rawC out → out = []) ∧
    (lookupField rawC "included" = some (.jarr []) →
        ParseConversationsRel rawC out → out = []) := by
  refine ⟨?_, ?_, ?_⟩
  · intro hnk
    have hent := getStringM_of_no_miniProfile hnk ["entityUrn"]
    have hpub := getStringM_of_no_miniProfile hnk ["publicIdentifier"]
    have hfn := getStringM_of_no_miniProfile hnk ["firstName"]
    have hln := getStringM_of_no_miniProfile hnk ["lastName"]
    have hocc := getStringM_of_no_miniProfile hnk ["occupation"]
    have hme : parseMe raw = ⟨"", "", "", "", "", "", ""⟩ := by
      unfold parseMe
      rw [hent.1, hent.2, hpub.1, hpub.2, hfn.1, hln.1, hfn.2, hln.2,
        hocc.1, hocc.2]
      simp [urnID, trimSpace, trimSpaceChars]
    exact ⟨hme, by rw [getMe, hme]⟩
  · intro hinc hrel
    have hpre : parseConversationsPre rawC = [] := by
      unfold parseConversationsPre
      rw [hinc]
    exact List.Perm.eq_nil (hpre ▸ hrel.1)
  · intro hinc hrel
    have hpre : parseConversationsPre rawC = [] := by
      unfold parseConversationsPre
      rw [hinc]
      rfl
    exact List.Perm.eq_nil (hpre ▸ hrel.1)

/-- Witness for `c9_soft_miss_zero_values` at concrete documents: one with
no `miniProfile` anywhere, one without `included`, one with an empty
`included`. -/
theorem c9_soft_miss_zero_values_witness :
    (parseMe [("foo", JValue.jstr "x")] = ⟨"", "", "", "", "", "", ""⟩ ∧
     getMe (.ok [("foo", JValue.jstr "x")]) =
       .ok (⟨"", "", "", "", "", "", ""⟩ : MeM)) ∧
    (([] : List Conversation) = []) ∧
    (([] : List Conversation) = []) :=
  ⟨(c9_soft_miss_zero_values [("foo", JValue.jstr "x")] [("x", JValue.jnull)] []).1
     (by decide),
   (c9_soft_miss_zero_values [("foo", JValue.jstr "x")] [("x", JValue.jnull)] []).2.1
     rfl (by decide),
   (c9_soft_miss_zero_values [("foo", JValue.jstr "x")]
       [("included", JValue.jarr [])] []).2.2
     rfl (by decide)⟩

/-! ## Claim C3 -/

set_option maxRecDepth 40000 in
/-- C3: every `ParseConversations` output is sorted by the resolved last
message's `DeliveredAt` descending, with an unresolved (`none`) last
message counted as timestamp `0` (sorting to the end); every
`ParseMessages` output is sorted by `DeliveredAt` ascending.  On the
fixture with last-message timestamps 100, 300, 200 the (unique) output
order is `[300, 200, 100]`; on the fixture with message timestamps
300, 100, 200 it is `[100, 200, 300]`. -/
theorem c3_result_ordering :
    (∀ (e : String) (ps : List Participant),
        convLastTs ⟨e, ps, none⟩ = 0) ∧
    (∀ (raw : List (String × JValue)) (outC : List Conversation),
        ParseConversationsRel raw outC →
        List.Chain' (fun a b => convLastTs b ≤ convLastTs a) outC) ∧
    (∀ (raw : List (String × JValue)) (outM : List Message),
        ParseMessagesRel raw outM →
        List.Chain' (fun a b => a.DeliveredAt ≤ b.DeliveredAt) outM) ∧
    (∀ outC : List Conversation, ParseConversationsRel convFixture outC →
        outC.map convLastTs = [300, 200, 100]) ∧
    (∀ outM : List Message, ParseMessagesRel msgFixture outM →
        outM.map Message.DeliveredAt = [100, 200, 300]) := by
  refine ⟨fun e ps => rfl, ?_, ?_, ?_, ?_⟩
  · intro raw outC h
    refine ((sortedBy_iff_chain' _).mp h.2).imp ?_
    intro a b hab
    exact of_decide_eq_true hab
  · intro raw outM h
    refine ((sortedBy_iff_chain' _).mp h.2).imp ?_
    intro a b hab
    exact of_decide_eq_true hab
  · intro outC h
    have hrelE : ParseConversationsRel convFixture
        [⟨"urn:li:conv:c2", [], some ⟨"urn:li:msg:m2", "second", "", "", 300⟩⟩,
         ⟨"urn:li:conv:c3", [], some ⟨"urn:li:msg:m3", "third", "", "", 200⟩⟩,
         ⟨"urn:li:conv:c1", [], some ⟨"urn:li:msg:m1", "first", "", "", 100⟩⟩] := by
      decide
    have hn : (outC.map convLastTs).Nodup :=
      ((h.1.map convLastTs).nodup_iff).mpr (by decide)
    have heq := conv_sorted_unique (h.1.trans hrelE.1.symm) h.2 hrelE.2 hn
    rw [heq]
    decide
  · intro outM h
    have hrelE : ParseMessagesRel msgFixture
        [⟨"urn:li:msg:m2", "b", "", "", 100⟩,
         ⟨"urn:li:msg:m3", "c", "", "", 200⟩,
         ⟨"urn:li:msg:m1", "a", "", "", 300⟩] := by
      decide
    have hn : (outM.map Message.DeliveredAt).Nodup :=
      ((h.1.map Message.DeliveredAt).nodup_iff).mpr (by decide)
    have heq := msg_sorted_unique (h.1.trans hrelE.1.symm) h.2 hrelE.2 hn
    rw [heq]
    decide

set_option maxRecDepth 40000 in
/-- Witness for `c3_result_ordering`: the fixtures' sorted outputs
themselves satisfy the relations, so the concrete conclusions are
realised. -/
theorem c3_result_ordering_witness :
    ([⟨"urn:li:conv:c2", [], some ⟨"urn:li:msg:m2", "second", "", "", 300⟩⟩,
      ⟨"urn:li:conv:c3", [], some ⟨"urn:li:msg:m3", "third", "", "", 200⟩⟩,
      ⟨"urn:li:conv:c1", [], some ⟨"urn:li:msg:m1", "first", "", "", 100⟩⟩]
        : List Conversation).map convLastTs = [300, 200, 100] ∧
    ([⟨"urn:li:msg:m2", "b", "", "", 100⟩,
      ⟨"urn:li:msg:m3", "c", "", "", 200⟩,
      ⟨"urn:li:msg:m1", "a", "", "", 300⟩] : List Message).map
        Message.DeliveredAt = [100, 200, 300] :=
  ⟨c3_result_ordering.2.2.2.1 _ (by decide),
   c3_result_ordering.2.2.2.2 _ (by decide)⟩

/-! ## Claim C7 -/

set_option maxRecDepth 40000 in
/-- C7, counterexample: the sorts are performed with `sort.Slice`, which
Go documents as *not* guaranteed to be stable; under that contract the
fixture with two distinct messages sharing timestamp 100 (pre-sort order
`[mA, mB]`) admits `[mB, mA]` as a valid `ParseMessages` output — the
relative input order of the tied messages is not preserved — and both
`[mA, mB]` and `[mB, mA]` are valid outputs, so the output on ties is not
uniquely determined either. -/
theorem c7_counterexample_unstable_tie :
    parseMessagesPre msgFixtureTie =
      [⟨"urn:li:msg:mA", "a", "", "", 100⟩,
       ⟨"urn:li:msg:mB", "b", "", "", 100⟩] ∧
    ParseMessagesRel msgFixtureTie
      [⟨"urn:li:msg:mB", "b", "", "", 100⟩,
       ⟨"urn:li:msg:mA", "a", "", "", 100⟩] ∧
    ParseMessagesRel msgFixtureTie
      [⟨"urn:li:msg:mA", "a", "", "", 100⟩,
       ⟨"urn:li:msg:mB", "b", "", "", 100⟩] ∧
    (⟨"urn:li:msg:mA", "a", "", "", 100⟩ : Message) ≠
      ⟨"urn:li:msg:mB", "b", "", "", 100⟩ := by
  refine ⟨by decide, by decide, by decide, by decide⟩

/-- C7, amended: the sorts guarantee only a sorted permutation of the
extracted items — `sort.Slice` is not guaranteed to be stable, so the
relative order of equal-timestamp items is implementation-defined — and
the output *is* uniquely determined (hence deterministic) whenever the
sort keys of the extracted items are pairwise distinct. -/
theorem c7_amended_deterministic_on_distinct_keys
    (raw : List (String × JValue)) (outM₁ outM₂ : List Message)
    (outC₁ outC₂ : List Conversation) :
    (ParseMessagesRel raw outM₁ → ParseMessagesRel raw outM₂ →
        ((parseMessagesPre raw).map Message.DeliveredAt).Nodup →
        outM₁ = outM₂) ∧
    (ParseConversationsRel raw outC₁ → ParseConversationsRel raw outC₂ →
        ((parseConversationsPre raw).map convLastTs).Nodup →
        outC₁ = outC₂) := by
  constructor
  · intro h₁ h₂ hn
    have hn₁ : (outM₁.map Message.DeliveredAt).Nodup :=
      ((h₁.1.map Message.DeliveredAt).nodup_iff).mpr hn
    exact msg_sorted_unique (h₁.1.trans h₂.1.symm) h₁.2 h₂.2 hn₁
  · intro h₁ h₂ hn
    have hn₁ : (outC₁.map convLastTs).Nodup :=
      ((h₁.1.map convLastTs).nodup_iff).mpr hn
    exact conv_sorted_unique (h₁.1.trans h₂.1.symm) h₁.2 h₂.2 hn₁

set_option maxRecDepth 40000 in
/-- Witness for `c7_amended_deterministic_on_distinct_keys` at the
distinct-timestamp fixtures. -/
theorem c7_amended_deterministic_on_distinct_keys_witness :
    (([⟨"urn:li:msg:m2", "b", "", "", 100⟩,
       ⟨"urn:li:msg:m3", "c", "", "", 200⟩,
       ⟨"urn:li:msg:m1", "a", "", "", 300⟩] : List Message) =
      [⟨"urn:li:msg:m2", "b", "", "", 100⟩,
       ⟨"urn:li:msg:m3", "c", "", "", 200⟩,
       ⟨"urn:li:msg:m1", "a", "", "", 300⟩]) ∧
    (([⟨"urn:li:conv:c2", [], some ⟨"urn:li:msg:m2", "second", "", "", 300⟩⟩,
       ⟨"urn:li:conv:c3", [], some ⟨"urn:li:msg:m3", "third", "", "", 200⟩⟩,
       ⟨"urn:li:conv:c1", [], some ⟨"urn:li:msg:m1", "first", "", "", 100⟩⟩]
        : List Conversation) =
      [⟨"urn:li:conv:c2", [], some ⟨"urn:li:msg:m2", "second", "", "", 300⟩⟩,
       ⟨"urn:li:conv:c3", [], some ⟨"urn:li:msg:m3", "third", "", "", 200⟩⟩,
       ⟨"urn:li:conv:c1", [], some ⟨"urn:li:msg:m1", "first", "", "", 100⟩⟩]) :=
  ⟨(c7_amended_deterministic_on_distinct_keys msgFixture _ _ [] []).1
     (by decide) (by decide) (by decide),
   (c7_amended_deterministic_on_distinct_keys convFixture [] [] _ _).2
     (by decide) (by decide) (by decide)⟩
